import Mathlib

/-!
Verification development for the devflow automation core: a shallow
embedding of the workflow engine state machine
(src/devflow/core/workflow_engine.py), the auto-fix engine
(src/devflow/core/auto_fix.py) and the continuous PR monitor
(src/devflow/core/continuous_monitor.py), together with theorems about
the iteration bound, review-decision merging, terminal-state handling,
resumability, feedback detection, grouping and monitoring behaviour.

External collaborators (platform adapter, AI agents, git, CI) are
modelled as explicit input streams consumed by the handlers, so every
definition is an executable function of the session state and the
stream of external responses.  Wall-clock timestamps, console output,
logging and free-form context dictionaries are not modelled; the
execution path modelled for the engine loop is auto_mode = True,
dry_run = False.
-/

namespace Devflow

/-- WorkflowState enum of workflow_engine.py (class WorkflowState). -/
inductive WorkflowState where
  | pending
  | validating
  | validated
  | worktreeCreating
  | implementing
  | implemented
  | reviewing
  | needsFixes
  | reviewPassed
  | finalizing
  | readyForHuman
  | completed
  | merged
  | validationFailed
  | implementationFailed
  | reviewFailed
  | maxIterationsReached
  | needsHumanIntervention
deriving DecidableEq, Repr

/-- The .value string of each WorkflowState member. -/
def stateValue : WorkflowState → String
  | .pending => "pending"
  | .validating => "validating"
  | .validated => "validated"
  | .worktreeCreating => "worktree_creating"
  | .implementing => "implementing"
  | .implemented => "implemented"
  | .reviewing => "reviewing"
  | .needsFixes => "needs_fixes"
  | .reviewPassed => "review_passed"
  | .finalizing => "finalizing"
  | .readyForHuman => "ready_for_human"
  | .completed => "completed"
  | .merged => "merged"
  | .validationFailed => "validation_failed"
  | .implementationFailed => "implementation_failed"
  | .reviewFailed => "review_failed"
  | .maxIterationsReached => "max_iterations_reached"
  | .needsHumanIntervention => "needs_human_intervention"

/-- ValidationResult of agents/base.py as consumed by _stage_validation. -/
inductive ValidationResult where
  | valid
  | needsClarification
  | invalid
deriving DecidableEq, Repr

/-- ImplementationResult of agents/base.py as consumed by
_stage_implementation.  The PARTIAL member is named partialResult
because partial is a reserved word in Lean. -/
inductive ImplementationResult where
  | success
  | partialResult
  | failed
deriving DecidableEq, Repr

/-- ReviewDecision of adapters/base.py as consumed by _stage_review and
_merge_review_feedback. -/
inductive ReviewDecision where
  | approve
  | requestChanges
  | comment
deriving DecidableEq, Repr

/-- The .value-like rendering of a review decision, used only for the
transcript log entries. -/
def reviewDecisionValue : ReviewDecision → String
  | .approve => "approve"
  | .requestChanges => "request_changes"
  | .comment => "comment"

/-- WorkflowSession dataclass of workflow_engine.py.  The created_at /
updated_at timestamps and the free-form context_data dictionary are not
modelled; session_transcript, an append-only log of agent outputs, is
modelled as the list of appended entries. -/
structure WorkflowSession where
  issueId : String
  issueNumber : Nat
  currentState : WorkflowState
  iterationCount : Nat
  maxIterations : Nat
  worktreePath : Option String
  branchName : Option String
  prNumber : Option Nat
  sessionTranscript : List String
deriving DecidableEq, Repr

/-- The dict returned by every stage handler: success flag, optional
next_state, optional error message. -/
structure StageResult where
  success : Bool
  nextState : Option WorkflowState
  error : Option String
deriving DecidableEq, Repr

/-- The stream of external responses consumed by the stage handlers:
one ValidationResult per validation-agent call, one
ImplementationResult per implementation-agent call, one list of
ReviewDecision per coordinated review, and the number the platform
assigns to a newly created pull request.  An exhausted stream models
the agent or platform call raising an exception. -/
structure Env where
  validations : List ValidationResult
  impls : List ImplementationResult
  reviews : List (List ReviewDecision)
  newPrNumber : Nat
deriving DecidableEq, Repr

/-- _merge_review_feedback of workflow_engine.py: empty input defaults
to COMMENT; otherwise REQUEST_CHANGES takes precedence over APPROVE,
which takes precedence over COMMENT. -/
def mergeReviewFeedback (decisions : List ReviewDecision) : ReviewDecision :=
  if decisions = [] then
    ReviewDecision.comment
  else if ReviewDecision.requestChanges ∈ decisions then
    ReviewDecision.requestChanges
  else if ReviewDecision.approve ∈ decisions then
    ReviewDecision.approve
  else
    ReviewDecision.comment

/-- _stage_validation: consumes one validation response; VALID advances
to VALIDATED, NEEDS_CLARIFICATION and INVALID fail the stage.  An
exhausted stream models the agent raising (caught, stage fails). -/
def stageValidation (s : WorkflowSession) (env : Env) :
    StageResult × WorkflowSession × Env :=
  match env.validations with
  | [] => (⟨false, none, some "No validation agent available"⟩, s, env)
  | r :: rest =>
    let s := { s with sessionTranscript := s.sessionTranscript ++ ["VALIDATION"] }
    let env := { env with validations := rest }
    match r with
    | ValidationResult.valid =>
        (⟨true, some WorkflowState.validated, none⟩, s, env)
    | ValidationResult.needsClarification =>
        (⟨false, none, some "Issue needs clarification"⟩, s, env)
    | ValidationResult.invalid =>
        (⟨false, none, some "Validation failed"⟩, s, env)

/-- _stage_worktree_creation: derives the deterministic branch name
issue-{n}, records the worktree path, advances to IMPLEMENTING. -/
def stageWorktreeCreation (s : WorkflowSession) (env : Env) :
    StageResult × WorkflowSession × Env :=
  let branch := "issue-" ++ toString s.issueNumber
  let s := { s with
    branchName := some branch,
    worktreePath := some ("/tmp/devflow-worktree-" ++ toString s.issueNumber) }
  (⟨true, some WorkflowState.implementing, none⟩, s, env)

/-- _stage_implementation: consumes one implementation response.
SUCCESS increments iteration_count and advances to IMPLEMENTED; PARTIAL
advances without incrementing; FAILED fails the stage.  An exhausted
stream models the agent raising (caught, stage fails). -/
def stageImplementation (s : WorkflowSession) (env : Env) :
    StageResult × WorkflowSession × Env :=
  match env.impls with
  | [] => (⟨false, none, some "No implementation agent available"⟩, s, env)
  | r :: rest =>
    let s := { s with sessionTranscript := s.sessionTranscript ++ ["IMPLEMENTATION"] }
    let env := { env with impls := rest }
    match r with
    | ImplementationResult.success =>
        (⟨true, some WorkflowState.implemented, none⟩,
          { s with iterationCount := s.iterationCount + 1 }, env)
    | ImplementationResult.partialResult =>
        (⟨true, some WorkflowState.implemented, none⟩, s, env)
    | ImplementationResult.failed =>
        (⟨false, none, some "Implementation failed"⟩, s, env)

/-- _stage_review: creates the pull request when pr_number is not yet
set (Python truthiness: a stored 0 also triggers creation), consumes
one coordinated-review response, merges the decisions and advances to
REVIEW_PASSED exactly when the merged decision is APPROVE, otherwise to
NEEDS_FIXES.  An exhausted stream models a platform or agent call
raising (caught, stage fails). -/
def stageReview (s : WorkflowSession) (env : Env) :
    StageResult × WorkflowSession × Env :=
  match env.reviews with
  | [] => (⟨false, none, some "Review stage failed"⟩, s, env)
  | decisions :: rest =>
    let s :=
      match s.prNumber with
      | none => { s with prNumber := some env.newPrNumber }
      | some 0 => { s with prNumber := some env.newPrNumber }
      | some _ => s
    let s := { s with
      sessionTranscript :=
        s.sessionTranscript ++
          decisions.map (fun d => "REVIEW " ++ reviewDecisionValue d) }
    let env := { env with reviews := rest }
    if mergeReviewFeedback decisions = ReviewDecision.approve then
      (⟨true, some WorkflowState.reviewPassed, none⟩, s, env)
    else
      (⟨true, some WorkflowState.needsFixes, none⟩, s, env)

/-- _stage_fix_implementation: when iteration_count has reached
max_iterations the handler mutates the in-memory session to
MAX_ITERATIONS_REACHED and fails the stage; otherwise it increments
iteration_count and loops back to IMPLEMENTING. -/
def stageFixImplementation (s : WorkflowSession) (env : Env) :
    StageResult × WorkflowSession × Env :=
  if s.maxIterations ≤ s.iterationCount then
    (⟨false, some WorkflowState.maxIterationsReached, some "Maximum iterations reached"⟩,
      { s with currentState := WorkflowState.maxIterationsReached }, env)
  else
    (⟨true, some WorkflowState.implementing, none⟩,
      { s with iterationCount := s.iterationCount + 1 }, env)

/-- _stage_finalization: no-op success path into READY_FOR_HUMAN. -/
def stageFinalization (s : WorkflowSession) (env : Env) :
    StageResult × WorkflowSession × Env :=
  (⟨true, some WorkflowState.readyForHuman, none⟩, s, env)

/-- _execute_stage: the dict-based dispatch of workflow_engine.py.  Only
PENDING, VALIDATED, IMPLEMENTING, IMPLEMENTED, NEEDS_FIXES and
REVIEW_PASSED have handlers; every other state produces the
"No handler for stage" failure. -/
def executeStage (s : WorkflowSession) (env : Env) :
    StageResult × WorkflowSession × Env :=
  match s.currentState with
  | WorkflowState.pending => stageValidation s env
  | WorkflowState.validated => stageWorktreeCreation s env
  | WorkflowState.implementing => stageImplementation s env
  | WorkflowState.implemented => stageReview s env
  | WorkflowState.needsFixes => stageFixImplementation s env
  | WorkflowState.reviewPassed => stageFinalization s env
  | st => (⟨false, none, some ("No handler for stage: " ++ stateValue st)⟩, s, env)

/-- The session store (StateManager workflows map restricted to the
operations the engine uses): an association list keyed by issue number.
save_workflow_session stores a value snapshot (session.to_dict), so
later in-memory mutations never leak into the store. -/
def Store : Type := List (Nat × WorkflowSession)

/-- The empty store (no prior sessions). -/
def emptyStore : Store := []

/-- StateManager.get_workflow_session. -/
def lookupStore (store : Store) (n : Nat) : Option WorkflowSession :=
  match store with
  | [] => none
  | (k, v) :: rest => if k = n then some v else lookupStore rest n

/-- StateManager.save_workflow_session: idempotent overwrite keyed by
issue number. -/
def saveStore (store : Store) (n : Nat) (s : WorkflowSession) : Store :=
  (n, s) :: (List.filter (fun p => !(p.1 = n : Bool)) store)

/-- Outcome of one _execute_workflow run.  The failedAt field is ghost
instrumentation recording the state whose handler failed (the state the
loop was at when it broke with an error); the code surfaces this only
through the error message. -/
structure LoopOutcome where
  session : WorkflowSession
  store : Store
  env : Env
  stagesCompleted : List String
  error : Option String
  failedAt : Option WorkflowState
  fuelExhausted : Bool

/-- The while-True loop of _execute_workflow (auto_mode, not dry-run),
with explicit fuel.  The terminal check of the source covers exactly
COMPLETED, MERGED, MAX_ITERATIONS_REACHED and NEEDS_HUMAN_INTERVENTION;
on handler success the completed stage name is appended and, when a
next_state is given, the session transitions and is persisted; on
handler failure the loop stops without persisting. -/
def workflowLoop : Nat → WorkflowSession → Env → Store → List String → LoopOutcome
  | 0, s, env, store, acc => ⟨s, store, env, acc, none, none, true⟩
  | fuel + 1, s, env, store, acc =>
    if s.currentState = WorkflowState.completed
        ∨ s.currentState = WorkflowState.merged
        ∨ s.currentState = WorkflowState.maxIterationsReached
        ∨ s.currentState = WorkflowState.needsHumanIntervention then
      ⟨s, store, env, acc, none, none, false⟩
    else
      match executeStage s env with
      | (res, s2, env2) =>
        if res.success then
          match res.nextState with
          | some ns =>
            workflowLoop fuel { s2 with currentState := ns } env2
              (saveStore store s2.issueNumber { s2 with currentState := ns })
              (acc ++ [stateValue s2.currentState])
          | none =>
            workflowLoop fuel s2 env2 store (acc ++ [stateValue s2.currentState])
        else
          ⟨s2, store, env2, acc, res.error, some s.currentState, false⟩

/-- A fresh session as _get_or_create_session builds it (state PENDING,
iteration_count 0, the configured maximum). -/
def freshSession (n maxIter : Nat) : WorkflowSession :=
  { issueId := "issue-" ++ toString n
    issueNumber := n
    currentState := WorkflowState.pending
    iterationCount := 0
    maxIterations := maxIter
    worktreePath := none
    branchName := none
    prNumber := none
    sessionTranscript := [] }

/-- _get_or_create_session: an existing stored session is returned
untouched; otherwise a fresh session is created and saved. -/
def getOrCreateSession (store : Store) (n maxIter : Nat) :
    WorkflowSession × Store :=
  match lookupStore store n with
  | some s => (s, store)
  | none =>
    let s := freshSession n maxIter
    (s, saveStore store n s)

/-- process_issue followed by _execute_workflow for one issue. -/
def processIssue (fuel n maxIter : Nat) (env : Env) (store : Store) :
    LoopOutcome :=
  match getOrCreateSession store n maxIter with
  | (s, store) => workflowLoop fuel s env store []

/-- The final result['success'] computation of _execute_workflow
(lines 476-480): the run counts as successful exactly when the final
state is COMPLETED, MERGED or READY_FOR_HUMAN. -/
def finalSuccess (o : LoopOutcome) : Bool :=
  o.session.currentState = WorkflowState.completed
    ∨ o.session.currentState = WorkflowState.merged
    ∨ o.session.currentState = WorkflowState.readyForHuman

/-! ## Auto-Fix Engine (auto_fix.py) -/

/-- FeedbackType enum of auto_fix.py. -/
inductive FeedbackType where
  | ciFailure
  | reviewFeedback
  | mergeConflict
  | securityAlert
deriving DecidableEq, Repr

/-- The .value string of a FeedbackType, the tiebreaker of the
prioritization sort key. -/
def feedbackTypeValue : FeedbackType → String
  | .ciFailure => "ci_failure"
  | .reviewFeedback => "review_feedback"
  | .mergeConflict => "merge_conflict"
  | .securityAlert => "security_alert"

/-- FixPriority enum of auto_fix.py. -/
inductive FixPriority where
  | critical
  | high
  | medium
  | low
deriving DecidableEq, Repr

/-- FeedbackItem dataclass of auto_fix.py.  rawData holds the string
rendering str(item.raw_data) that the grouping step substring-matches
against (str(None) = "None" when the field is absent). -/
structure FeedbackItem where
  type : FeedbackType
  priority : FixPriority
  title : String
  description : String
  filePath : Option String
  lineNumber : Option Nat
  suggestion : Option String
  rawData : String
deriving DecidableEq, Repr

/-- AutoFixResult dataclass of auto_fix.py. -/
structure AutoFixResult where
  success : Bool
  fixesApplied : List String
  filesModified : List String
  commitMessage : String
  validationPassed : Bool
  errorMessage : Option String
deriving DecidableEq, Repr

/-- Python substring containment needle in hay, on character lists. -/
def charsContain (needle hay : List Char) : Bool :=
  match hay with
  | [] => needle.isEmpty
  | _ :: rest =>
    (needle.zip hay).all (fun p => p.1 == p.2) && needle.length ≤ hay.length
      || charsContain needle rest

/-- Python substring containment needle in hay on strings. -/
def strContains (hay needle : String) : Bool :=
  charsContain needle.data hay.data

/-- _detect_all_feedback of auto_fix.py: one Except entry per
registered detector run (ok = the returned item list, error = the
detector raised); results are concatenated in detector order, and a
raising detector is logged and skipped without aborting the others. -/
def detectAllFeedback (runs : List (Except String (List FeedbackItem))) :
    List FeedbackItem :=
  runs.foldl
    (fun acc r =>
      match r with
      | Except.ok items => acc ++ items
      | Except.error _ => acc)
    []

/-- The priority_order table of _prioritize_feedback. -/
def priorityRank : FixPriority → Nat
  | .critical => 0
  | .high => 1
  | .medium => 2
  | .low => 3

/-- _prioritize_feedback: stable sort by (priority rank, type value). -/
def prioritizeFeedback (items : List FeedbackItem) : List FeedbackItem :=
  items.mergeSort (fun a b =>
    decide (priorityRank a.priority < priorityRank b.priority)
      || (decide (priorityRank a.priority = priorityRank b.priority)
            && decide (feedbackTypeValue a.type ≤ feedbackTypeValue b.type)))

/-- The fixed key order of the groups dict in
_group_feedback_for_fixing. -/
def groupNames : List String :=
  ["critical_security", "linting_errors", "type_errors", "test_failures",
   "documentation", "code_style", "performance", "general"]

/-- The bucket _group_feedback_for_fixing assigns one item to,
mirroring its if/elif chain: CRITICAL priority first, then CI-failure
sub-buckets by keyword in raw_data or title, then documentation, style,
performance keyword buckets, else general. -/
def groupOf (item : FeedbackItem) : String :=
  if item.priority = FixPriority.critical then
    "critical_security"
  else if item.type = FeedbackType.ciFailure then
    if strContains item.rawData.toLower "flake8"
        || strContains item.title.toLower "lint" then
      "linting_errors"
    else if strContains item.rawData.toLower "mypy"
        || strContains item.title.toLower "type" then
      "type_errors"
    else if strContains item.title.toLower "test"
        || strContains item.rawData.toLower "pytest" then
      "test_failures"
    else
      "general"
  else if strContains item.title.toLower "documentation"
      || strContains item.title.toLower "docstring" then
    "documentation"
  else if item.priority = FixPriority.low
      || strContains item.title.toLower "style" then
    "code_style"
  else if strContains item.title.toLower "performance"
      || strContains item.title.toLower "optimize" then
    "performance"
  else
    "general"

/-- _group_feedback_for_fixing: bucket the items into the eight named
groups (preserving input order inside each bucket and the fixed dict
key order across buckets), then drop the empty buckets. -/
def groupFeedbackForFixing (items : List FeedbackItem) :
    List (String × List FeedbackItem) :=
  (groupNames.map (fun g => (g, items.filter (fun it => groupOf it = g)))).filter
    (fun p => !(p.2.isEmpty))

/-- The outcome of processing one fix group inside _apply_fixes: either
the group body raised (logged, recorded as a validation error), or the
AI agent call returned with a success flag, the fixes it reports
applied, the files it claims modified, and the missing-file validation
errors _validate_fixes found for them. -/
structure GroupFixOutcome where
  raised : Bool
  aiSuccess : Bool
  fixesApplied : List String
  filesModified : List String
  missingFiles : List String
deriving DecidableEq, Repr

/-- External responses consumed by one auto-fix cycle: per outer
iteration the list of detector-run outcomes, per processed fix group
one GroupFixOutcome, and per git commit-and-push call its boolean
result. -/
structure AutoFixEnv where
  rounds : List (List (Except String (List FeedbackItem)))
  groupOutcomes : List GroupFixOutcome
  commitResults : List Bool
deriving Repr

/-- Accumulator of the per-group loop in _apply_fixes. -/
structure ApplyFixesAcc where
  fixesApplied : List String
  filesModified : List String
  validationErrors : List String
  groupOutcomes : List GroupFixOutcome
deriving DecidableEq, Repr

/-- One step of the per-group loop of _apply_fixes: consume the next
group outcome; a raising group adds a validation error and aborts
nothing else; a successful AI call accumulates its fixes and files and,
when it modified files, the missing-file validation errors; a failed AI
call is logged and skipped. -/
def applyFixesStep (acc : ApplyFixesAcc) (groupName : String) : ApplyFixesAcc :=
  match acc.groupOutcomes with
  | [] =>
    { acc with validationErrors :=
        acc.validationErrors ++ ["Failed to process " ++ groupName] }
  | o :: rest =>
    let acc := { acc with groupOutcomes := rest }
    if o.raised then
      { acc with validationErrors :=
          acc.validationErrors ++ ["Failed to process " ++ groupName] }
    else if o.aiSuccess then
      { acc with
        fixesApplied := acc.fixesApplied ++ o.fixesApplied
        filesModified := acc.filesModified ++ o.filesModified
        validationErrors :=
          acc.validationErrors ++
            (if o.filesModified.isEmpty then [] else o.missingFiles) }
    else
      acc

/-- _apply_fixes: group the (already prioritized) items, process each
group in order, and aggregate: success requires at least one fix
applied and no validation error; files_modified is deduplicated (the
source collects them in a set). -/
def applyFixes (items : List FeedbackItem) (outs : List GroupFixOutcome) :
    AutoFixResult × List GroupFixOutcome :=
  let grouped := groupFeedbackForFixing items
  let acc := (grouped.map Prod.fst).foldl applyFixesStep
    ⟨[], [], [], outs⟩
  let ok := !(acc.fixesApplied.isEmpty) && acc.validationErrors.isEmpty
  (⟨ok, acc.fixesApplied, acc.filesModified.dedup,
    (if acc.fixesApplied.isEmpty then
        "chore: automated fixes (no changes applied)"
      else "fix: auto-resolve issues"),
    acc.validationErrors.isEmpty,
    (if acc.validationErrors.isEmpty then none
      else some (String.intercalate "; " acc.validationErrors))⟩,
   acc.groupOutcomes)

/-- _commit_and_push_fixes: returns True immediately when no files were
modified; otherwise the git add/status/commit/push outcome is consumed
from the environment (push failure alone is already folded into a True
entry by the source, which keeps success when only the push fails). -/
def commitAndPushFixes (result : AutoFixResult) (commits : List Bool) :
    Bool × List Bool :=
  if result.filesModified.isEmpty then
    (true, commits)
  else
    match commits with
    | [] => (false, commits)
    | b :: rest => (b, rest)

/-- The body of run_auto_fix_cycle: for each of the max_iterations
outer iterations, detect feedback (one detector round per iteration);
return early with a clean success when nothing is detected; otherwise
prioritize, apply fixes, stop on an unsuccessful fix result, commit and
push, and loop; exhausting the iterations yields the bounded
"Max iterations reached" failure. -/
def runAutoFixLoop : Nat → Nat → AutoFixEnv → AutoFixResult × AutoFixEnv
  | 0, maxIterations, env =>
    (⟨false, [], [], "", false,
      some ("Max iterations (" ++ toString maxIterations ++ ") reached")⟩, env)
  | fuel + 1, maxIterations, env =>
    let (runs, env) :=
      match env.rounds with
      | [] => ([], env)
      | r :: rest => (r, { env with rounds := rest })
    let feedbackItems := detectAllFeedback runs
    if feedbackItems.isEmpty then
      (⟨true, [], [], "No fixes needed", true, none⟩, env)
    else
      let prioritized := prioritizeFeedback feedbackItems
      let (fixResult, outs) := applyFixes prioritized env.groupOutcomes
      let env := { env with groupOutcomes := outs }
      if !fixResult.success then
        (fixResult, env)
      else
        let (committed, commits) := commitAndPushFixes fixResult env.commitResults
        let env := { env with commitResults := commits }
        if committed then
          runAutoFixLoop fuel maxIterations env
        else
          ({ fixResult with
              success := false
              errorMessage := some "Failed to commit fixes" }, env)

/-- run_auto_fix_cycle of auto_fix.py (the pr_number is only used for
logging and platform calls folded into the environment). -/
def runAutoFixCycle (prNumber maxIterations : Nat) (env : AutoFixEnv) :
    AutoFixResult × AutoFixEnv :=
  runAutoFixLoop maxIterations maxIterations env

/-! ## Continuous Monitor (continuous_monitor.py) -/

/-- The ci_status strings of MonitoringStatus. -/
inductive CiStatus where
  | passing
  | failing
  | pending
  | unknown
deriving DecidableEq, Repr

/-- MonitoringStatus dataclass of continuous_monitor.py (the last_check
timestamp is not modelled). -/
structure MonitoringStatus where
  prNumber : Nat
  ciStatus : CiStatus
  autoFixAttempts : Nat
  readyForHuman : Bool
  validationComplete : Bool
deriving DecidableEq, Repr

/-- External responses consumed by the monitor: one CiStatus per
_get_ci_status call (an exhausted stream models the status check
raising, which _get_ci_status maps to "unknown"), and one AutoFixResult
per delegated run_auto_fix_cycle call (an exhausted stream models the
delegate failing). -/
structure MonitorEnv where
  ciStatuses : List CiStatus
  autoFixResults : List AutoFixResult
deriving DecidableEq, Repr

/-- The dict returned by _process_pr, restricted to the fields
run_monitoring_cycle reads: the status string and the value of
pr_result.get('ready_for_human', False).  Only the CI-passing branch
puts the ready_for_human key into the dict. -/
structure PrCycleResult where
  status : String
  readyForHuman : Bool
deriving DecidableEq, Repr

/-- _get_ci_status: consume the next CI status; exhaustion models the
exception fallback to "unknown". -/
def popCiStatus (env : MonitorEnv) : CiStatus × MonitorEnv :=
  match env.ciStatuses with
  | [] => (CiStatus.unknown, env)
  | c :: rest => (c, { env with ciStatuses := rest })

/-- The delegated run_auto_fix_cycle call as the monitor sees it. -/
def popAutoFixResult (env : MonitorEnv) : AutoFixResult × MonitorEnv :=
  match env.autoFixResults with
  | [] => (⟨false, [], [], "", false, some "auto-fix failed"⟩, env)
  | r :: rest => (r, { env with autoFixResults := rest })

/-- _process_pr of continuous_monitor.py: refresh the CI status; if
passing, set ready_for_human on the status and return a result carrying
ready_for_human = True; if failing with fewer than 3 auto-fix attempts,
delegate one auto-fix cycle and increment auto_fix_attempts; if the
attempts have reached 3 (and CI is not passing), set ready_for_human on
the status but return a needs_human_intervention result WITHOUT the
ready_for_human key; otherwise report waiting. -/
def processPr (st : MonitoringStatus) (env : MonitorEnv) :
    PrCycleResult × MonitoringStatus × MonitorEnv :=
  let (ci, env) := popCiStatus env
  let st := { st with ciStatus := ci }
  if ci = CiStatus.passing then
    (⟨"ready_for_human", true⟩,
      { st with readyForHuman := true, validationComplete := true }, env)
  else if ci = CiStatus.failing ∧ st.autoFixAttempts < 3 then
    let (afr, env) := popAutoFixResult env
    let st := { st with autoFixAttempts := st.autoFixAttempts + 1 }
    if afr.success && !(afr.fixesApplied.isEmpty) then
      (⟨"auto_fix_applied", false⟩, st, env)
    else
      (⟨"auto_fix_failed", false⟩, st, env)
  else if 3 ≤ st.autoFixAttempts then
    (⟨"needs_human_intervention", false⟩, { st with readyForHuman := true }, env)
  else
    (⟨"waiting", false⟩, st, env)

/-- The tracked-PR map self.monitored_prs as an insertion-ordered
association list. -/
def lookupPr (prs : List (Nat × MonitoringStatus)) (n : Nat) :
    Option MonitoringStatus :=
  match prs with
  | [] => none
  | (k, v) :: rest => if k = n then some v else lookupPr rest n

/-- In-place update of one tracked PR's status. -/
def updatePr (prs : List (Nat × MonitoringStatus)) (n : Nat)
    (st : MonitoringStatus) : List (Nat × MonitoringStatus) :=
  prs.map (fun p => if p.1 = n then (n, st) else p)

/-- del self.monitored_prs[pr_number]. -/
def removePr (prs : List (Nat × MonitoringStatus)) (n : Nat) :
    List (Nat × MonitoringStatus) :=
  prs.filter (fun p => !(p.1 = n : Bool))

/-- One cycle of run_monitoring_cycle: iterate over the snapshot of
tracked PR numbers, process each, and delete a PR from tracking exactly
when the returned dict's ready_for_human entry is True. -/
def runOneMonitorCycle (prs : List (Nat × MonitoringStatus))
    (env : MonitorEnv) : List (Nat × MonitoringStatus) × MonitorEnv :=
  (prs.map Prod.fst).foldl
    (fun acc n =>
      let (cur, env) := acc
      match lookupPr cur n with
      | none => (cur, env)
      | some st =>
        let (res, st2, env) := processPr st env
        if res.readyForHuman then (removePr cur n, env)
        else (updatePr cur n st2, env))
    (prs, env)

/-- run_monitoring_cycle: up to max_cycles cycles, exiting early once
no PR remains tracked (the inter-cycle sleep is not modelled). -/
def runMonitoringCycle : Nat → List (Nat × MonitoringStatus) → MonitorEnv →
    List (Nat × MonitoringStatus) × MonitorEnv
  | 0, prs, env => (prs, env)
  | cycles + 1, prs, env =>
    let (prs2, env2) := runOneMonitorCycle prs env
    if prs2.isEmpty then (prs2, env2)
    else runMonitoringCycle cycles prs2 env2

/-! ## Review-decision merging: helper lemmas -/

/-- Merging a decision set that contains REQUEST_CHANGES yields
REQUEST_CHANGES. -/
lemma mergeReviewFeedback_requestChanges (ds : List ReviewDecision)
    (h : ReviewDecision.requestChanges ∈ ds) :
    mergeReviewFeedback ds = ReviewDecision.requestChanges := by
  unfold mergeReviewFeedback
  rw [if_neg (List.ne_nil_of_mem h), if_pos h]

/-- Merging a decision set without REQUEST_CHANGES but with APPROVE
yields APPROVE. -/
lemma mergeReviewFeedback_approve (ds : List ReviewDecision)
    (h1 : ReviewDecision.requestChanges ∉ ds)
    (h2 : ReviewDecision.approve ∈ ds) :
    mergeReviewFeedback ds = ReviewDecision.approve := by
  unfold mergeReviewFeedback
  rw [if_neg (List.ne_nil_of_mem h2), if_neg h1, if_pos h2]

/-- Merging an all-COMMENT (possibly empty) decision set yields
COMMENT. -/
lemma mergeReviewFeedback_comment (ds : List ReviewDecision)
    (h : ∀ d ∈ ds, d = ReviewDecision.comment) :
    mergeReviewFeedback ds = ReviewDecision.comment := by
  unfold mergeReviewFeedback
  by_cases hne : ds = []
  · rw [if_pos hne]
  · have hreq : ReviewDecision.requestChanges ∉ ds :=
      fun hm => ReviewDecision.noConfusion (h _ hm)
    have happ : ReviewDecision.approve ∉ ds :=
      fun hm => ReviewDecision.noConfusion (h _ hm)
    rw [if_neg hne, if_neg hreq, if_neg happ]

/-- The stage result of _stage_review is decided entirely by the merged
decision of the consumed review round: REVIEW_PASSED on APPROVE,
NEEDS_FIXES otherwise. -/
lemma stageReview_result (s : WorkflowSession) (env : Env)
    (ds : List ReviewDecision) (rest : List (List ReviewDecision))
    (h : env.reviews = ds :: rest) :
    (stageReview s env).1 =
      if mergeReviewFeedback ds = ReviewDecision.approve then
        (⟨true, some WorkflowState.reviewPassed, none⟩ : StageResult)
      else
        (⟨true, some WorkflowState.needsFixes, none⟩ : StageResult) := by
  unfold stageReview
  rw [h]
  by_cases hm : mergeReviewFeedback ds = ReviewDecision.approve
  · simp [hm]
  · simp [hm]

/-- Claim C2: a non-empty review-response set containing at least one
REQUEST_CHANGES merges to REQUEST_CHANGES and sends the review stage to
NEEDS_FIXES, regardless of the other responses; without REQUEST_CHANGES
but with at least one APPROVE it merges to APPROVE and sends the stage
to REVIEW_PASSED. -/
theorem review_merge_precedence (s : WorkflowSession)
    (vs : List ValidationResult) (imps : List ImplementationResult)
    (rest : List (List ReviewDecision)) (pn : Nat)
    (ds : List ReviewDecision) (hne : ds ≠ []) :
    (ReviewDecision.requestChanges ∈ ds →
      mergeReviewFeedback ds = ReviewDecision.requestChanges
      ∧ (stageReview s ⟨vs, imps, ds :: rest, pn⟩).1.success = true
      ∧ (stageReview s ⟨vs, imps, ds :: rest, pn⟩).1.nextState
          = some WorkflowState.needsFixes)
    ∧ (ReviewDecision.requestChanges ∉ ds → ReviewDecision.approve ∈ ds →
      mergeReviewFeedback ds = ReviewDecision.approve
      ∧ (stageReview s ⟨vs, imps, ds :: rest, pn⟩).1.success = true
      ∧ (stageReview s ⟨vs, imps, ds :: rest, pn⟩).1.nextState
          = some WorkflowState.reviewPassed) := by
  have hres := stageReview_result s ⟨vs, imps, ds :: rest, pn⟩ ds rest rfl
  constructor
  · intro hreq
    have hm := mergeReviewFeedback_requestChanges ds hreq
    rw [hm] at hres
    rw [if_neg (by simp : ¬(ReviewDecision.requestChanges = ReviewDecision.approve))] at hres
    rw [hres]
    exact ⟨hm, rfl, rfl⟩
  · intro hreq happ
    have hm := mergeReviewFeedback_approve ds hreq happ
    rw [hm, if_pos rfl] at hres
    rw [hres]
    exact ⟨hm, rfl, rfl⟩

/-- Witness for review_merge_precedence at a concrete mixed decision
set. -/
theorem review_merge_precedence_witness :
    ([ReviewDecision.approve, ReviewDecision.requestChanges,
        ReviewDecision.comment] ≠ ([] : List ReviewDecision))
    ∧ mergeReviewFeedback
        [ReviewDecision.approve, ReviewDecision.requestChanges,
          ReviewDecision.comment] = ReviewDecision.requestChanges := by
  have h := review_merge_precedence (freshSession 1 3) [] [] [] 7
    [ReviewDecision.approve, ReviewDecision.requestChanges,
      ReviewDecision.comment] (by decide)
  exact ⟨by decide, (h.1 (by decide)).1⟩

/-- Claim C3 counterexample: a single-reviewer COMMENT response makes
the review stage advance to NEEDS_FIXES, so the stage does select
NEEDS_FIXES for a COMMENT-only response set (the claim states it never
does). -/
theorem review_comment_goes_to_needs_fixes :
    (stageReview (freshSession 9 3)
        ⟨[], [], [[ReviewDecision.comment]], 12⟩).1.nextState
      = some WorkflowState.needsFixes
    ∧ mergeReviewFeedback [ReviewDecision.comment] = ReviewDecision.comment := by
  constructor
  · rfl
  · rfl

/-- Claim C3 amended: an all-COMMENT (or empty) review-response set
merges to COMMENT, and the review stage then advances to NEEDS_FIXES
(not to the review-passed continuation). -/
theorem review_comment_default (s : WorkflowSession)
    (vs : List ValidationResult) (imps : List ImplementationResult)
    (rest : List (List ReviewDecision)) (pn : Nat)
    (ds : List ReviewDecision)
    (h : ∀ d ∈ ds, d = ReviewDecision.comment) :
    mergeReviewFeedback ds = ReviewDecision.comment
    ∧ (stageReview s ⟨vs, imps, ds :: rest, pn⟩).1.success = true
    ∧ (stageReview s ⟨vs, imps, ds :: rest, pn⟩).1.nextState
        = some WorkflowState.needsFixes := by
  have hm := mergeReviewFeedback_comment ds h
  have hres := stageReview_result s ⟨vs, imps, ds :: rest, pn⟩ ds rest rfl
  rw [hm] at hres
  rw [if_neg (by simp : ¬(ReviewDecision.comment = ReviewDecision.approve))] at hres
  rw [hres]
  exact ⟨hm, rfl, rfl⟩

/-- Witness for review_comment_default at a concrete all-COMMENT
set. -/
theorem review_comment_default_witness :
    mergeReviewFeedback [ReviewDecision.comment, ReviewDecision.comment]
      = ReviewDecision.comment
    ∧ (stageReview (freshSession 2 3)
        ⟨[], [], [[ReviewDecision.comment, ReviewDecision.comment]], 3⟩).1.nextState
      = some WorkflowState.needsFixes := by
  have h := review_comment_default (freshSession 2 3) [] [] [] 3
    [ReviewDecision.comment, ReviewDecision.comment] (by decide)
  exact ⟨h.1, h.2.2⟩

/-! ## Iteration accounting -/

/-- The inductive iteration invariant of the engine loop: the counter
never exceeds the bound by more than one, and while the session is in
the states that lead into an implementation call (PENDING, VALIDATED,
IMPLEMENTING) it is still within the bound. -/
abbrev IterInv (s : WorkflowSession) : Prop :=
  s.iterationCount ≤ s.maxIterations + 1
  ∧ ((s.currentState = WorkflowState.pending
      ∨ s.currentState = WorkflowState.validated
      ∨ s.currentState = WorkflowState.implementing)
    → s.iterationCount ≤ s.maxIterations)

/-- Frame facts for _stage_validation: it never touches the iteration
counter, the bound or the state, and only ever proposes VALIDATED. -/
lemma stageValidation_frame (s : WorkflowSession) (env : Env) :
    (stageValidation s env).2.1.iterationCount = s.iterationCount
    ∧ (stageValidation s env).2.1.maxIterations = s.maxIterations
    ∧ (stageValidation s env).2.1.currentState = s.currentState
    ∧ ((stageValidation s env).1.success = true →
        (stageValidation s env).1.nextState = some WorkflowState.validated) := by
  unfold stageValidation
  cases env.validations with
  | nil => simp
  | cons r rest => cases r <;> simp

/-- Frame facts for _stage_worktree_creation. -/
lemma stageWorktreeCreation_frame (s : WorkflowSession) (env : Env) :
    (stageWorktreeCreation s env).2.1.iterationCount = s.iterationCount
    ∧ (stageWorktreeCreation s env).2.1.maxIterations = s.maxIterations
    ∧ (stageWorktreeCreation s env).2.1.currentState = s.currentState
    ∧ (stageWorktreeCreation s env).1.nextState
        = some WorkflowState.implementing := by
  unfold stageWorktreeCreation
  simp

/-- Frame facts for _stage_implementation: the counter grows by at most
one, only on a SUCCESS response, and the stage only ever proposes
IMPLEMENTED. -/
lemma stageImplementation_frame (s : WorkflowSession) (env : Env) :
    (stageImplementation s env).2.1.maxIterations = s.maxIterations
    ∧ (stageImplementation s env).2.1.currentState = s.currentState
    ∧ (stageImplementation s env).2.1.iterationCount ≤ s.iterationCount + 1
    ∧ ((stageImplementation s env).1.success = false →
        (stageImplementation s env).2.1.iterationCount = s.iterationCount)
    ∧ ((stageImplementation s env).1.success = true →
        (stageImplementation s env).1.nextState
          = some WorkflowState.implemented) := by
  unfold stageImplementation
  cases env.impls with
  | nil => simp
  | cons r rest => cases r <;> simp

/-- Frame facts for _stage_review: it never touches the iteration
counter, the bound or the state, and only ever proposes REVIEW_PASSED
or NEEDS_FIXES. -/
lemma stageReview_frame (s : WorkflowSession) (env : Env) :
    (stageReview s env).2.1.iterationCount = s.iterationCount
    ∧ (stageReview s env).2.1.maxIterations = s.maxIterations
    ∧ (stageReview s env).2.1.currentState = s.currentState
    ∧ ((stageReview s env).1.nextState = some WorkflowState.reviewPassed
        ∨ (stageReview s env).1.nextState = some WorkflowState.needsFixes
        ∨ (stageReview s env).1.nextState = none) := by
  unfold stageReview
  cases env.reviews with
  | nil => simp
  | cons ds rest =>
    cases hp : s.prNumber with
    | none =>
      by_cases hm : mergeReviewFeedback ds = ReviewDecision.approve <;>
        simp [hp, hm]
    | some k =>
      cases k with
      | zero =>
        by_cases hm : mergeReviewFeedback ds = ReviewDecision.approve <;>
          simp [hp, hm]
      | succ j =>
        by_cases hm : mergeReviewFeedback ds = ReviewDecision.approve <;>
          simp [hp, hm]

/-- Frame facts for _stage_finalization. -/
lemma stageFinalization_frame (s : WorkflowSession) (env : Env) :
    (stageFinalization s env).2.1.iterationCount = s.iterationCount
    ∧ (stageFinalization s env).2.1.maxIterations = s.maxIterations
    ∧ (stageFinalization s env).2.1.currentState = s.currentState
    ∧ (stageFinalization s env).1.nextState
        = some WorkflowState.readyForHuman := by
  unfold stageFinalization
  simp

/-- The two branches of _stage_fix_implementation: at the bound the
stage fails and moves the in-memory session to MAX_ITERATIONS_REACHED
without touching the counter; under the bound it increments the counter
and proposes IMPLEMENTING. -/
lemma stageFixImplementation_cases (s : WorkflowSession) (env : Env) :
    (s.maxIterations ≤ s.iterationCount →
      stageFixImplementation s env =
        (⟨false, some WorkflowState.maxIterationsReached,
            some "Maximum iterations reached"⟩,
          { s with currentState := WorkflowState.maxIterationsReached }, env))
    ∧ (s.iterationCount < s.maxIterations →
      stageFixImplementation s env =
        (⟨true, some WorkflowState.implementing, none⟩,
          { s with iterationCount := s.iterationCount + 1 }, env)) := by
  unfold stageFixImplementation
  constructor
  · intro hle
    rw [if_pos hle]
  · intro hlt
    rw [if_neg (by omega)]

/-- The iteration-invariant conclusion shared by the dispatcher-step
lemma below: the post-handler session satisfies the invariant on
failure and on success without a proposed next state, and the
transitioned session satisfies it on success with a proposed next
state. -/
def StepInv (s : WorkflowSession) (env : Env) : Prop :=
  ((executeStage s env).1.success = false → IterInv (executeStage s env).2.1)
  ∧ ((executeStage s env).1.success = true →
      (executeStage s env).1.nextState = none →
      IterInv (executeStage s env).2.1)
  ∧ (∀ ns, (executeStage s env).1.success = true →
      (executeStage s env).1.nextState = some ns →
      IterInv { (executeStage s env).2.1 with currentState := ns })

/-- StepInv holds in the dispatcher's no-handler branch. -/
lemma stepInv_of_noHandler (s : WorkflowSession) (env : Env)
    (h1 : s.iterationCount ≤ s.maxIterations + 1)
    (hnot : ¬(s.currentState = WorkflowState.pending
      ∨ s.currentState = WorkflowState.validated
      ∨ s.currentState = WorkflowState.implementing))
    (hE : executeStage s env = (⟨false, none,
        some ("No handler for stage: " ++ stateValue s.currentState)⟩, s, env)) :
    StepInv s env := by
  unfold StepInv
  rw [hE]
  refine ⟨?_, ?_, ?_⟩
  · intro _
    exact ⟨h1, fun hc => absurd hc hnot⟩
  · intro hsucc _
    cases hsucc
  · intro ns hsucc _
    cases hsucc

/-- Stepping any stage handler preserves the iteration invariant. -/
lemma executeStage_iterInv (s : WorkflowSession) (env : Env) (h : IterInv s) :
    StepInv s env := by
  obtain ⟨h1, h2⟩ := h
  cases hs : s.currentState with
  | pending =>
    have hE : executeStage s env = stageValidation s env := by
      unfold executeStage
      rw [hs]
    have hcount := h2 (Or.inl hs)
    obtain ⟨f1, f2, f3, f4⟩ := stageValidation_frame s env
    unfold StepInv
    rw [hE]
    refine ⟨?_, ?_, ?_⟩
    · intro _
      refine ⟨?_, ?_⟩
      · rw [f1, f2]
        exact h1
      · intro _
        rw [f1, f2]
        exact hcount
    · intro hsucc hnone
      rw [f4 hsucc] at hnone
      cases hnone
    · intro ns hsucc hns
      rw [f4 hsucc] at hns
      injection hns with hns
      subst hns
      refine ⟨?_, ?_⟩
      · show (stageValidation s env).2.1.iterationCount
            ≤ (stageValidation s env).2.1.maxIterations + 1
        rw [f1, f2]
        exact h1
      · intro _
        show (stageValidation s env).2.1.iterationCount
            ≤ (stageValidation s env).2.1.maxIterations
        rw [f1, f2]
        exact hcount
  | validated =>
    have hE : executeStage s env = stageWorktreeCreation s env := by
      unfold executeStage
      rw [hs]
    have hcount := h2 (Or.inr (Or.inl hs))
    obtain ⟨f1, f2, f3, f4⟩ := stageWorktreeCreation_frame s env
    unfold StepInv
    rw [hE]
    refine ⟨?_, ?_, ?_⟩
    · intro _
      refine ⟨?_, ?_⟩
      · rw [f1, f2]
        exact h1
      · intro _
        rw [f1, f2]
        exact hcount
    · intro _ hnone
      rw [f4] at hnone
      cases hnone
    · intro ns _ hns
      rw [f4] at hns
      injection hns with hns
      subst hns
      refine ⟨?_, ?_⟩
      · show (stageWorktreeCreation s env).2.1.iterationCount
            ≤ (stageWorktreeCreation s env).2.1.maxIterations + 1
        rw [f1, f2]
        exact h1
      · intro _
        show (stageWorktreeCreation s env).2.1.iterationCount
            ≤ (stageWorktreeCreation s env).2.1.maxIterations
        rw [f1, f2]
        exact hcount
  | implementing =>
    have hE : executeStage s env = stageImplementation s env := by
      unfold executeStage
      rw [hs]
    have hcount := h2 (Or.inr (Or.inr hs))
    obtain ⟨f1, f2, f3, f4, f5⟩ := stageImplementation_frame s env
    unfold StepInv
    rw [hE]
    refine ⟨?_, ?_, ?_⟩
    · intro hfail
      refine ⟨?_, ?_⟩
      · rw [f4 hfail, f1]
        omega
      · intro _
        rw [f4 hfail, f1]
        exact hcount
    · intro hsucc hnone
      rw [f5 hsucc] at hnone
      cases hnone
    · intro ns hsucc hns
      rw [f5 hsucc] at hns
      injection hns with hns
      subst hns
      refine ⟨?_, ?_⟩
      · show (stageImplementation s env).2.1.iterationCount
            ≤ (stageImplementation s env).2.1.maxIterations + 1
        rw [f1]
        omega
      · intro hc
        rcases hc with hc | hc | hc <;> cases hc
  | implemented =>
    have hE : executeStage s env = stageReview s env := by
      unfold executeStage
      rw [hs]
    obtain ⟨f1, f2, f3, f4⟩ := stageReview_frame s env
    unfold StepInv
    rw [hE]
    have hinv : IterInv (stageReview s env).2.1 := by
      refine ⟨?_, ?_⟩
      · rw [f1, f2]
        exact h1
      · rw [f3, hs]
        intro hc
        rcases hc with hc | hc | hc <;> cases hc
    refine ⟨fun _ => hinv, fun _ _ => hinv, ?_⟩
    intro ns _ hns
    rcases f4 with hrp | hnf | hno
    · rw [hrp] at hns
      injection hns with hns
      subst hns
      refine ⟨?_, ?_⟩
      · show (stageReview s env).2.1.iterationCount
            ≤ (stageReview s env).2.1.maxIterations + 1
        rw [f1, f2]
        exact h1
      · intro hc
        rcases hc with hc | hc | hc <;> cases hc
    · rw [hnf] at hns
      injection hns with hns
      subst hns
      refine ⟨?_, ?_⟩
      · show (stageReview s env).2.1.iterationCount
            ≤ (stageReview s env).2.1.maxIterations + 1
        rw [f1, f2]
        exact h1
      · intro hc
        rcases hc with hc | hc | hc <;> cases hc
    · rw [hno] at hns
      cases hns
  | needsFixes =>
    have hE : executeStage s env = stageFixImplementation s env := by
      unfold executeStage
      rw [hs]
    have hc := stageFixImplementation_cases s env
    unfold StepInv
    rw [hE]
    by_cases hle : s.maxIterations ≤ s.iterationCount
    · rw [hc.1 hle]
      refine ⟨?_, ?_, ?_⟩
      · intro _
        refine ⟨h1, ?_⟩
        intro hcon
        rcases hcon with hcon | hcon | hcon <;> cases hcon
      · intro hsucc _
        cases hsucc
      · intro ns hsucc _
        cases hsucc
    · have hlt : s.iterationCount < s.maxIterations := by omega
      rw [hc.2 hlt]
      refine ⟨?_, ?_, ?_⟩
      · intro hfail
        cases hfail
      · intro _ hnone
        cases hnone
      · intro ns _ hns
        injection hns with hns
        subst hns
        refine ⟨?_, ?_⟩
        · show s.iterationCount + 1 ≤ s.maxIterations + 1
          omega
        · intro _
          show s.iterationCount + 1 ≤ s.maxIterations
          omega
  | reviewPassed =>
    have hE : executeStage s env = stageFinalization s env := by
      unfold executeStage
      rw [hs]
    obtain ⟨f1, f2, f3, f4⟩ := stageFinalization_frame s env
    unfold StepInv
    rw [hE]
    have hinv : IterInv (stageFinalization s env).2.1 := by
      refine ⟨?_, ?_⟩
      · rw [f1, f2]
        exact h1
      · rw [f3, hs]
        intro hcon
        rcases hcon with hcon | hcon | hcon <;> cases hcon
    refine ⟨fun _ => hinv, fun _ _ => hinv, ?_⟩
    intro ns _ hns
    rw [f4] at hns
    injection hns with hns
    subst hns
    refine ⟨?_, ?_⟩
    · show (stageFinalization s env).2.1.iterationCount
          ≤ (stageFinalization s env).2.1.maxIterations + 1
      rw [f1, f2]
      exact h1
    · intro hcon
      rcases hcon with hcon | hcon | hcon <;> cases hcon
  | validating =>
    refine stepInv_of_noHandler s env h1 ?_ ?_
    · rw [hs]
      rintro (hcon | hcon | hcon) <;> cases hcon
    · unfold executeStage
      rw [hs]
  | worktreeCreating =>
    refine stepInv_of_noHandler s env h1 ?_ ?_
    · rw [hs]
      rintro (hcon | hcon | hcon) <;> cases hcon
    · unfold executeStage
      rw [hs]
  | reviewing =>
    refine stepInv_of_noHandler s env h1 ?_ ?_
    · rw [hs]
      rintro (hcon | hcon | hcon) <;> cases hcon
    · unfold executeStage
      rw [hs]
  | finalizing =>
    refine stepInv_of_noHandler s env h1 ?_ ?_
    · rw [hs]
      rintro (hcon | hcon | hcon) <;> cases hcon
    · unfold executeStage
      rw [hs]
  | readyForHuman =>
    refine stepInv_of_noHandler s env h1 ?_ ?_
    · rw [hs]
      rintro (hcon | hcon | hcon) <;> cases hcon
    · unfold executeStage
      rw [hs]
  | completed =>
    refine stepInv_of_noHandler s env h1 ?_ ?_
    · rw [hs]
      rintro (hcon | hcon | hcon) <;> cases hcon
    · unfold executeStage
      rw [hs]
  | merged =>
    refine stepInv_of_noHandler s env h1 ?_ ?_
    · rw [hs]
      rintro (hcon | hcon | hcon) <;> cases hcon
    · unfold executeStage
      rw [hs]
  | validationFailed =>
    refine stepInv_of_noHandler s env h1 ?_ ?_
    · rw [hs]
      rintro (hcon | hcon | hcon) <;> cases hcon
    · unfold executeStage
      rw [hs]
  | implementationFailed =>
    refine stepInv_of_noHandler s env h1 ?_ ?_
    · rw [hs]
      rintro (hcon | hcon | hcon) <;> cases hcon
    · unfold executeStage
      rw [hs]
  | reviewFailed =>
    refine stepInv_of_noHandler s env h1 ?_ ?_
    · rw [hs]
      rintro (hcon | hcon | hcon) <;> cases hcon
    · unfold executeStage
      rw [hs]
  | maxIterationsReached =>
    refine stepInv_of_noHandler s env h1 ?_ ?_
    · rw [hs]
      rintro (hcon | hcon | hcon) <;> cases hcon
    · unfold executeStage
      rw [hs]
  | needsHumanIntervention =>
    refine stepInv_of_noHandler s env h1 ?_ ?_
    · rw [hs]
      rintro (hcon | hcon | hcon) <;> cases hcon
    · unfold executeStage
      rw [hs]

/-- The iteration invariant is preserved by the whole engine loop. -/
lemma workflowLoop_iterInv : ∀ (fuel : Nat) (s : WorkflowSession) (env : Env)
    (store : Store) (acc : List String), IterInv s →
    IterInv (workflowLoop fuel s env store acc).session := by
  intro fuel
  induction fuel with
  | zero =>
    intro s env store acc h
    exact h
  | succ n ih =>
    intro s env store acc h
    have hstep := executeStage_iterInv s env h
    unfold StepInv at hstep
    unfold workflowLoop
    split
    · exact h
    · split
      next res s2 env2 heq =>
        rw [heq] at hstep
        split
        · next hsucc =>
          split
          · next ns hns =>
            exact ih _ _ _ _ (hstep.2.2 ns hsucc hns)
          · next hns =>
            exact ih _ _ _ _ (hstep.2.1 hsucc hns)
        · next hfail =>
          have hfalse : res.success = false := by
            cases hb : res.success
            · rfl
            · exact absurd hb hfail
          exact hstep.1 hfalse

/-- Claim C1 counterexample: with max_iterations = 2, a run whose
implementation succeeds, is sent back by a REQUEST_CHANGES review, and
succeeds again ends with iteration_count = 3 > max_iterations = 2 (the
fix stage and the implementation stage each increment once per loop),
refuting the claim that iteration_count never exceeds
max_iterations. -/
theorem iteration_bound_counterexample :
    (processIssue 20 1 2
        ⟨[ValidationResult.valid],
          [ImplementationResult.success, ImplementationResult.success],
          [[ReviewDecision.requestChanges], [ReviewDecision.approve]],
          101⟩ emptyStore).session.iterationCount = 3
    ∧ (processIssue 20 1 2
        ⟨[ValidationResult.valid],
          [ImplementationResult.success, ImplementationResult.success],
          [[ReviewDecision.requestChanges], [ReviewDecision.approve]],
          101⟩ emptyStore).session.maxIterations = 2 := by
  constructor
  · rfl
  · rfl

/-- Every stage handler, and the no-handler branch, leaves the
max_iterations bound untouched. -/
lemma executeStage_maxIterations (s : WorkflowSession) (env : Env) :
    (executeStage s env).2.1.maxIterations = s.maxIterations := by
  cases hs : s.currentState
  case pending =>
    have hE : executeStage s env = stageValidation s env := by
      unfold executeStage
      rw [hs]
    rw [hE]
    exact (stageValidation_frame s env).2.1
  case validated =>
    have hE : executeStage s env = stageWorktreeCreation s env := by
      unfold executeStage
      rw [hs]
    rw [hE]
    exact (stageWorktreeCreation_frame s env).2.1
  case implementing =>
    have hE : executeStage s env = stageImplementation s env := by
      unfold executeStage
      rw [hs]
    rw [hE]
    exact (stageImplementation_frame s env).1
  case implemented =>
    have hE : executeStage s env = stageReview s env := by
      unfold executeStage
      rw [hs]
    rw [hE]
    exact (stageReview_frame s env).2.1
  case needsFixes =>
    have hE : executeStage s env = stageFixImplementation s env := by
      unfold executeStage
      rw [hs]
    rw [hE]
    unfold stageFixImplementation
    by_cases hle : s.maxIterations ≤ s.iterationCount
    · rw [if_pos hle]
    · rw [if_neg hle]
  case reviewPassed =>
    have hE : executeStage s env = stageFinalization s env := by
      unfold executeStage
      rw [hs]
    rw [hE]
    exact (stageFinalization_frame s env).2.1
  all_goals
    have hE : executeStage s env = (⟨false, none,
        some ("No handler for stage: " ++ stateValue s.currentState)⟩, s, env) := by
      unfold executeStage
      rw [hs]
    rw [hE]

/-- The engine loop leaves the max_iterations bound untouched. -/
lemma workflowLoop_maxIterations : ∀ (fuel : Nat) (s : WorkflowSession)
    (env : Env) (store : Store) (acc : List String),
    (workflowLoop fuel s env store acc).session.maxIterations
      = s.maxIterations := by
  intro fuel
  induction fuel with
  | zero =>
    intro s env store acc
    rfl
  | succ n ih =>
    intro s env store acc
    have hmax := executeStage_maxIterations s env
    unfold workflowLoop
    split
    · rfl
    · split
      next res s2 env2 heq =>
        rw [heq] at hmax
        split
        · split
          · next ns hns =>
            rw [ih]
            exact hmax
          · next hns =>
            rw [ih]
            exact hmax
        · exact hmax

/-- Claim C1 amended: over any run of ProcessIssue started without a
prior session, iteration_count never exceeds max_iterations + 1 (the
bound itself can be overshot by exactly one, because both the
fix-implementation gate and the implementation stage increment); the
engine loop preserves this invariant from any invariant-satisfying
session; and whenever the fix-implementation stage is entered with
iteration_count >= max_iterations it fails the stage and moves the
session to MAX_ITERATIONS_REACHED rather than looping again. -/
theorem iteration_bound (fuel n maxIter : Nat) (env : Env) :
    (processIssue fuel n maxIter env emptyStore).session.iterationCount
      ≤ maxIter + 1
    ∧ (∀ (s : WorkflowSession) (e : Env) (store : Store) (acc : List String),
        IterInv s → IterInv (workflowLoop fuel s e store acc).session)
    ∧ (∀ (s : WorkflowSession) (e : Env),
        s.maxIterations ≤ s.iterationCount →
        (stageFixImplementation s e).1.success = false
        ∧ (stageFixImplementation s e).2.1.currentState
            = WorkflowState.maxIterationsReached
        ∧ (stageFixImplementation s e).1.nextState
            = some WorkflowState.maxIterationsReached) := by
  refine ⟨?_, ?_, ?_⟩
  · have hfresh : IterInv (freshSession n maxIter) := by
      refine ⟨?_, ?_⟩
      · show 0 ≤ maxIter + 1
        omega
      · intro _
        show 0 ≤ maxIter
        omega
    have h1 := (workflowLoop_iterInv fuel (freshSession n maxIter) env
      (saveStore emptyStore n (freshSession n maxIter)) [] hfresh).1
    have hm := workflowLoop_maxIterations fuel (freshSession n maxIter) env
      (saveStore emptyStore n (freshSession n maxIter)) []
    rw [hm] at h1
    exact h1
  · intro s e store acc hinv
    exact workflowLoop_iterInv fuel s e store acc hinv
  · intro s e hle
    have hc := (stageFixImplementation_cases s e).1 hle
    rw [hc]
    exact ⟨rfl, rfl, rfl⟩

/-- Witness for iteration_bound at a concrete run and a concrete
at-the-bound session. -/
theorem iteration_bound_witness :
    (processIssue 20 1 2
        ⟨[ValidationResult.valid],
          [ImplementationResult.success, ImplementationResult.success],
          [[ReviewDecision.requestChanges], [ReviewDecision.approve]],
          101⟩ emptyStore).session.iterationCount ≤ 3
    ∧ (stageFixImplementation
        { freshSession 6 2 with
            currentState := WorkflowState.needsFixes, iterationCount := 2 }
        ⟨[], [], [], 0⟩).2.1.currentState
      = WorkflowState.maxIterationsReached := by
  have h := iteration_bound 20 1 2
    ⟨[ValidationResult.valid],
      [ImplementationResult.success, ImplementationResult.success],
      [[ReviewDecision.requestChanges], [ReviewDecision.approve]],
      101⟩
  refine ⟨h.1, ?_⟩
  exact (h.2.2
    { freshSession 6 2 with
        currentState := WorkflowState.needsFixes, iterationCount := 2 }
    ⟨[], [], [], 0⟩ (by decide)).2.1

/-! ## Iteration-counter increment sites (claim C6) -/

/-- Claim C6 counterexample: the fix-implementation handler (not the
implementation handler) increments iteration_count on a successful
under-bound call, and a successful implementation call returning
PARTIAL advances the stage without incrementing; both refute the claim
that only the implementation handler increments, exactly once per
successful call including PARTIAL. -/
theorem iteration_increment_counterexample :
    (stageFixImplementation
        { freshSession 4 3 with currentState := WorkflowState.needsFixes }
        ⟨[], [], [], 0⟩).2.1.iterationCount
      = (freshSession 4 3).iterationCount + 1
    ∧ (stageImplementation
        { freshSession 4 3 with currentState := WorkflowState.implementing }
        ⟨[], [ImplementationResult.partialResult], [], 0⟩).1.success = true
    ∧ (stageImplementation
        { freshSession 4 3 with currentState := WorkflowState.implementing }
        ⟨[], [ImplementationResult.partialResult], [], 0⟩).2.1.iterationCount
      = (freshSession 4 3).iterationCount :=
  ⟨rfl, rfl, rfl⟩

/-- Claim C6 amended: iteration_count is changed by exactly two
handlers.  The implementation handler increments it exactly once per
call whose consumed response is SUCCESS (a successful call returning
PARTIAL advances without incrementing, a FAILED or raising call leaves
it unchanged); the fix-implementation handler increments it exactly
once per successful under-bound call (and leaves it unchanged at the
bound); the validation, worktree-creation, review and finalization
handlers never change it. -/
theorem iteration_increment_sites (s : WorkflowSession) (env : Env) :
    (stageValidation s env).2.1.iterationCount = s.iterationCount
    ∧ (stageWorktreeCreation s env).2.1.iterationCount = s.iterationCount
    ∧ (stageReview s env).2.1.iterationCount = s.iterationCount
    ∧ (stageFinalization s env).2.1.iterationCount = s.iterationCount
    ∧ ((stageImplementation s env).2.1.iterationCount =
        match env.impls with
        | ImplementationResult.success :: _ => s.iterationCount + 1
        | _ => s.iterationCount)
    ∧ ((stageFixImplementation s env).2.1.iterationCount =
        if s.maxIterations ≤ s.iterationCount then s.iterationCount
        else s.iterationCount + 1) := by
  refine ⟨(stageValidation_frame s env).1, (stageWorktreeCreation_frame s env).1,
    (stageReview_frame s env).1, (stageFinalization_frame s env).1, ?_, ?_⟩
  · unfold stageImplementation
    cases env.impls with
    | nil => simp
    | cons r rest => cases r <;> simp
  · unfold stageFixImplementation
    by_cases hle : s.maxIterations ≤ s.iterationCount
    · rw [if_pos hle, if_pos hle]
    · rw [if_neg hle, if_neg hle]

/-! ## Terminal-state handling (claim C4) -/

/-- Claim C4, evaluated at its failing input: a plain successful run
(validation VALID, implementation SUCCESS, review APPROVE) reaches
READY_FOR_HUMAN, and instead of stopping there the loop dispatches
again and records the error "No handler for stage: ready_for_human",
while still reporting overall success.  The loop's terminal check
covers only COMPLETED, MERGED, MAX_ITERATIONS_REACHED and
NEEDS_HUMAN_INTERVENTION, not READY_FOR_HUMAN. -/
theorem ready_for_human_dispatch_bug :
    (processIssue 10 7 3
        ⟨[ValidationResult.valid], [ImplementationResult.success],
          [[ReviewDecision.approve]], 55⟩ emptyStore).session.currentState
      = WorkflowState.readyForHuman
    ∧ (processIssue 10 7 3
        ⟨[ValidationResult.valid], [ImplementationResult.success],
          [[ReviewDecision.approve]], 55⟩ emptyStore).error
      = some "No handler for stage: ready_for_human"
    ∧ finalSuccess (processIssue 10 7 3
        ⟨[ValidationResult.valid], [ImplementationResult.success],
          [[ReviewDecision.approve]], 55⟩ emptyStore) = true :=
  ⟨rfl, rfl, rfl⟩

/-! ## Resumability (claim C5) -/

/-- Saving under a key makes that key's lookup return the saved
session. -/
lemma lookupStore_save (store : Store) (n : Nat) (v : WorkflowSession) :
    lookupStore (saveStore store n v) n = some v := by
  unfold saveStore lookupStore
  rw [if_pos rfl]

/-- Every stage handler, and the no-handler branch, leaves the issue
number untouched. -/
lemma executeStage_issueNumber (s : WorkflowSession) (env : Env) :
    (executeStage s env).2.1.issueNumber = s.issueNumber := by
  cases hs : s.currentState
  case pending =>
    have hE : executeStage s env = stageValidation s env := by
      unfold executeStage
      rw [hs]
    rw [hE]
    unfold stageValidation
    cases env.validations with
    | nil => simp
    | cons r rest => cases r <;> simp
  case validated =>
    have hE : executeStage s env = stageWorktreeCreation s env := by
      unfold executeStage
      rw [hs]
    rw [hE]
    unfold stageWorktreeCreation
    simp
  case implementing =>
    have hE : executeStage s env = stageImplementation s env := by
      unfold executeStage
      rw [hs]
    rw [hE]
    unfold stageImplementation
    cases env.impls with
    | nil => simp
    | cons r rest => cases r <;> simp
  case implemented =>
    have hE : executeStage s env = stageReview s env := by
      unfold executeStage
      rw [hs]
    rw [hE]
    unfold stageReview
    cases env.reviews with
    | nil => simp
    | cons ds rest =>
      cases hp : s.prNumber with
      | none =>
        by_cases hm : mergeReviewFeedback ds = ReviewDecision.approve <;>
          simp [hp, hm]
      | some k =>
        cases k with
        | zero =>
          by_cases hm : mergeReviewFeedback ds = ReviewDecision.approve <;>
            simp [hp, hm]
        | succ j =>
          by_cases hm : mergeReviewFeedback ds = ReviewDecision.approve <;>
            simp [hp, hm]
  case needsFixes =>
    have hE : executeStage s env = stageFixImplementation s env := by
      unfold executeStage
      rw [hs]
    rw [hE]
    unfold stageFixImplementation
    by_cases hle : s.maxIterations ≤ s.iterationCount
    · rw [if_pos hle]
    · rw [if_neg hle]
  case reviewPassed =>
    have hE : executeStage s env = stageFinalization s env := by
      unfold executeStage
      rw [hs]
    rw [hE]
    rfl
  all_goals
    have hE : executeStage s env = (⟨false, none,
        some ("No handler for stage: " ++ stateValue s.currentState)⟩, s, env) := by
      unfold executeStage
      rw [hs]
    rw [hE]

/-- A successful stage handler never changes current_state in place
(only the engine loop transitions it, and only the failing
fix-implementation branch mutates it directly). -/
lemma executeStage_success_state (s : WorkflowSession) (env : Env)
    (hsucc : (executeStage s env).1.success = true) :
    (executeStage s env).2.1.currentState = s.currentState := by
  cases hs : s.currentState
  case pending =>
    have hE : executeStage s env = stageValidation s env := by
      unfold executeStage
      rw [hs]
    rw [hE, (stageValidation_frame s env).2.2.1]
    exact hs
  case validated =>
    have hE : executeStage s env = stageWorktreeCreation s env := by
      unfold executeStage
      rw [hs]
    rw [hE, (stageWorktreeCreation_frame s env).2.2.1]
    exact hs
  case implementing =>
    have hE : executeStage s env = stageImplementation s env := by
      unfold executeStage
      rw [hs]
    rw [hE, (stageImplementation_frame s env).2.1]
    exact hs
  case implemented =>
    have hE : executeStage s env = stageReview s env := by
      unfold executeStage
      rw [hs]
    rw [hE, (stageReview_frame s env).2.2.1]
    exact hs
  case needsFixes =>
    have hE : executeStage s env = stageFixImplementation s env := by
      unfold executeStage
      rw [hs]
    rw [hE] at hsucc ⊢
    by_cases hle : s.maxIterations ≤ s.iterationCount
    · rw [(stageFixImplementation_cases s env).1 hle] at hsucc
      cases hsucc
    · rw [(stageFixImplementation_cases s env).2 (by omega)]
      exact hs
  case reviewPassed =>
    have hE : executeStage s env = stageFinalization s env := by
      unfold executeStage
      rw [hs]
    rw [hE, (stageFinalization_frame s env).2.2.1]
    exact hs
  all_goals
    have hE : executeStage s env = (⟨false, none,
        some ("No handler for stage: " ++ stateValue s.currentState)⟩, s, env) := by
      unfold executeStage
      rw [hs]
    rw [hE] at hsucc
    cases hsucc

/-- When the loop stops on a handler failure, the store still holds a
session whose current_state is the failing state: the failing step
persisted nothing, and every earlier successful transition persisted
the session it transitioned to. -/
lemma workflowLoop_resume : ∀ (fuel : Nat) (s : WorkflowSession) (env : Env)
    (store : Store) (acc : List String) (n : Nat) (t : WorkflowSession),
    s.issueNumber = n →
    lookupStore store n = some t →
    t.currentState = s.currentState →
    ∀ X, (workflowLoop fuel s env store acc).failedAt = some X →
      ∃ u, lookupStore (workflowLoop fuel s env store acc).store n = some u
        ∧ u.currentState = X := by
  intro fuel
  induction fuel with
  | zero =>
    intro s env store acc n t hn hl ht X hX
    cases hX
  | succ m ih =>
    intro s env store acc n t hn hl ht X hX
    unfold workflowLoop at hX ⊢
    by_cases hterm : s.currentState = WorkflowState.completed
        ∨ s.currentState = WorkflowState.merged
        ∨ s.currentState = WorkflowState.maxIterationsReached
        ∨ s.currentState = WorkflowState.needsHumanIntervention
    · rw [if_pos hterm] at hX
      cases hX
    · rw [if_neg hterm] at hX ⊢
      rcases heq : executeStage s env with ⟨res, s2, env2⟩
      have hnum : s2.issueNumber = n := by
        have := executeStage_issueNumber s env
        rw [heq] at this
        rw [← hn]
        exact this
      rw [heq] at hX
      dsimp only at hX ⊢
      by_cases hsucc : res.success = true
      · rw [if_pos hsucc] at hX ⊢
        cases hns : res.nextState with
        | some ns =>
          rw [hns] at hX
          dsimp only at hX
          refine ih { s2 with currentState := ns } env2
            (saveStore store s2.issueNumber { s2 with currentState := ns })
            (acc ++ [stateValue s2.currentState]) n
            { s2 with currentState := ns } hnum ?_ rfl X hX
          generalize ({ s2 with currentState := ns } : WorkflowSession) = u2
          rw [hnum]
          exact lookupStore_save store n u2
        | none =>
          rw [hns] at hX
          dsimp only at hX
          have hstate : s2.currentState = s.currentState := by
            have := executeStage_success_state s env (by rw [heq]; exact hsucc)
            rw [heq] at this
            exact this
          exact ih s2 env2 store (acc ++ [stateValue s2.currentState]) n t
            hnum hl (by rw [ht, hstate]) X hX
      · rw [if_neg hsucc] at hX ⊢
        injection hX with hX
        subst hX
        exact ⟨t, hl, ht⟩

/-- When a prior session exists for the issue number, process_issue
resumes the engine loop directly on it. -/
lemma processIssue_of_lookup (fuel n maxIter : Nat) (env : Env)
    (store : Store) (t : WorkflowSession)
    (h : lookupStore store n = some t) :
    processIssue fuel n maxIter env store = workflowLoop fuel t env store [] := by
  unfold processIssue getOrCreateSession
  rw [h]

/-- Claim C5: when a stage handler fails at state X, nothing is
persisted by the failing step, so the store still records a session at
state X (the last successfully persisted state); any later ProcessIssue
call for the same issue number loads exactly that session and resumes
the engine loop from it — the loop starts at X and so re-executes no
earlier completed stage.  The store is assumed well-keyed (every stored
session sits under its own issue number), which holds for every store
the engine itself builds. -/
theorem resumability (fuel n maxIter : Nat) (env : Env) (store : Store)
    (X : WorkflowState)
    (hstore : ∀ (k : Nat) (u : WorkflowSession),
      lookupStore store k = some u → u.issueNumber = k)
    (h : (processIssue fuel n maxIter env store).failedAt = some X) :
    ∃ t, lookupStore (processIssue fuel n maxIter env store).store n = some t
      ∧ t.currentState = X
      ∧ ∀ (fuel2 maxIter2 : Nat) (env2 : Env),
          processIssue fuel2 n maxIter2 env2
              (processIssue fuel n maxIter env store).store
            = workflowLoop fuel2 t env2
                (processIssue fuel n maxIter env store).store [] := by
  have hmain : ∃ t,
      lookupStore (processIssue fuel n maxIter env store).store n = some t
      ∧ t.currentState = X := by
    unfold processIssue getOrCreateSession at h ⊢
    cases hl : lookupStore store n with
    | some u =>
      rw [hl] at h
      dsimp only at h ⊢
      exact workflowLoop_resume fuel u env store [] n u (hstore n u hl) hl rfl X h
    | none =>
      rw [hl] at h
      dsimp only at h ⊢
      exact workflowLoop_resume fuel (freshSession n maxIter) env
        (saveStore store n (freshSession n maxIter)) [] n
        (freshSession n maxIter) rfl
        (lookupStore_save store n (freshSession n maxIter)) rfl X h
  obtain ⟨t, hlook, hstate⟩ := hmain
  exact ⟨t, hlook, hstate, fun fuel2 maxIter2 env2 =>
    processIssue_of_lookup fuel2 n maxIter2 env2 _ t hlook⟩

/-- Witness for resumability: a run whose implementation agent fails
leaves the persisted session at IMPLEMENTING, and any later call
resumes the loop on that session. -/
theorem resumability_witness :
    ∃ t, lookupStore (processIssue 10 3 3
        ⟨[ValidationResult.valid], [ImplementationResult.failed], [], 9⟩
        emptyStore).store 3 = some t
      ∧ t.currentState = WorkflowState.implementing
      ∧ ∀ (fuel2 maxIter2 : Nat) (env2 : Env),
          processIssue fuel2 3 maxIter2 env2
              (processIssue 10 3 3
                ⟨[ValidationResult.valid], [ImplementationResult.failed], [], 9⟩
                emptyStore).store
            = workflowLoop fuel2 t env2
                (processIssue 10 3 3
                  ⟨[ValidationResult.valid], [ImplementationResult.failed], [], 9⟩
                  emptyStore).store [] :=
  resumability 10 3 3
    ⟨[ValidationResult.valid], [ImplementationResult.failed], [], 9⟩
    emptyStore WorkflowState.implementing
    (fun k u h => by cases h) rfl

/-! ## Feedback detection (claims C8, C9) -/

/-- Folding the detector outcomes keeps everything already accumulated
and everything any non-raising detector produced. -/
lemma detectAllFeedback_mem_aux :
    ∀ (runs : List (Except String (List FeedbackItem)))
      (acc : List FeedbackItem) (x : FeedbackItem),
    (x ∈ acc ∨ ∃ items, Except.ok items ∈ runs ∧ x ∈ items) →
    x ∈ runs.foldl
      (fun acc r =>
        match r with
        | Except.ok items => acc ++ items
        | Except.error _ => acc)
      acc := by
  intro runs
  induction runs with
  | nil =>
    intro acc x h
    rcases h with h | ⟨items, hmem, _⟩
    · exact h
    · cases hmem
  | cons r rest ih =>
    intro acc x h
    cases r with
    | ok items0 =>
      rw [List.foldl_cons]
      rcases h with h | ⟨items, hmem, hx⟩
      · exact ih (acc ++ items0) x (Or.inl (List.mem_append_left items0 h))
      · rcases List.mem_cons.mp hmem with hhead | htail
        · injection hhead with hhead
          subst hhead
          exact ih (acc ++ items) x (Or.inl (List.mem_append_right acc hx))
        · exact ih (acc ++ items0) x (Or.inr ⟨items, htail, hx⟩)
    | error e =>
      rw [List.foldl_cons]
      rcases h with h | ⟨items, hmem, hx⟩
      · exact ih acc x (Or.inl h)
      · rcases List.mem_cons.mp hmem with hhead | htail
        · cases hhead
        · exact ih acc x (Or.inr ⟨items, htail, hx⟩)

/-- Claim C9: even when one registered detector raises during
detection, every feedback item produced by any other (non-raising)
detector still appears in the combined list _detect_all_feedback
returns — the raising detector is skipped without aborting the rest. -/
theorem detector_isolation (runs : List (Except String (List FeedbackItem)))
    (e : String) (hfail : Except.error e ∈ runs) :
    ∀ (items : List FeedbackItem) (x : FeedbackItem),
      Except.ok items ∈ runs → x ∈ items → x ∈ detectAllFeedback runs :=
  fun items x hok hx =>
    detectAllFeedback_mem_aux runs [] x (Or.inr ⟨items, hok, hx⟩)

/-- A concrete linting feedback item used by the witnesses. -/
def sampleLintItem : FeedbackItem :=
  ⟨FeedbackType.ciFailure, FixPriority.high, "Linting Error: E999",
    "syntax error", some "src/a.py", some 3, none, "flake8"⟩

/-- Witness for detector_isolation: one raising detector next to one
producing a concrete item. -/
theorem detector_isolation_witness :
    Except.error "detector raised" ∈
      ([Except.error "detector raised", Except.ok [sampleLintItem]] :
        List (Except String (List FeedbackItem)))
    ∧ sampleLintItem ∈
        detectAllFeedback
          [Except.error "detector raised", Except.ok [sampleLintItem]] := by
  refine ⟨by simp, ?_⟩
  exact detector_isolation _ "detector raised" (by simp) [sampleLintItem]
    sampleLintItem (by simp) (by simp)

/-- A detector round in which every detector returns an empty list
yields no feedback. -/
lemma detectAllFeedback_empty_aux :
    ∀ (runs : List (Except String (List FeedbackItem)))
      (acc : List FeedbackItem),
    (∀ r ∈ runs, r = Except.ok ([] : List FeedbackItem)) →
    runs.foldl
      (fun acc r =>
        match r with
        | Except.ok items => acc ++ items
        | Except.error _ => acc)
      acc = acc := by
  intro runs
  induction runs with
  | nil =>
    intro acc _
    rfl
  | cons r rest ih =>
    intro acc h
    have hr := h r (List.mem_cons_self r rest)
    subst hr
    rw [List.foldl_cons]
    dsimp only
    rw [List.append_nil]
    exact ih acc (fun r hr => h r (List.mem_cons_of_mem _ hr))

/-- All-empty detector rounds produce the empty combined feedback
list. -/
lemma detectAllFeedback_empty (runs : List (Except String (List FeedbackItem)))
    (h : ∀ r ∈ runs, r = Except.ok ([] : List FeedbackItem)) :
    detectAllFeedback runs = [] :=
  detectAllFeedback_empty_aux runs [] h

/-- Claim C8: when every detector returns an empty feedback list on the
first iteration, run_auto_fix_cycle returns immediately with
success = true, empty fix and file lists, validation_passed = true, and
consumes neither a group-fix outcome nor a git commit (no fix is
applied and nothing is committed). -/
theorem autofix_clean_input (pr maxIter : Nat)
    (runs : List (Except String (List FeedbackItem)))
    (rest : List (List (Except String (List FeedbackItem))))
    (gos : List GroupFixOutcome) (cs : List Bool)
    (hiter : 1 ≤ maxIter)
    (hruns : ∀ r ∈ runs, r = Except.ok ([] : List FeedbackItem)) :
    runAutoFixCycle pr maxIter ⟨runs :: rest, gos, cs⟩
      = (⟨true, [], [], "No fixes needed", true, none⟩,
         ⟨rest, gos, cs⟩) := by
  obtain ⟨k, rfl⟩ : ∃ k, maxIter = k + 1 := ⟨maxIter - 1, by omega⟩
  unfold runAutoFixCycle runAutoFixLoop
  dsimp only
  rw [detectAllFeedback_empty runs hruns]
  rfl

/-- Witness for autofix_clean_input at a concrete clean environment. -/
theorem autofix_clean_input_witness :
    runAutoFixCycle 42 3
        ⟨[[Except.ok [], Except.ok []]], [], [true]⟩
      = (⟨true, [], [], "No fixes needed", true, none⟩,
         ⟨[], [], [true]⟩) :=
  autofix_clean_input 42 3 [Except.ok [], Except.ok []] [] [] [true]
    (by decide)
    (by
      intro r hr
      rcases List.mem_cons.mp hr with h | h
      · exact h
      · simpa using h)

/-! ## Feedback grouping (claim C10) -/

/-- The grouping function always lands in one of the eight fixed
bucket names. -/
lemma groupOf_mem_groupNames (it : FeedbackItem) :
    groupOf it ∈ groupNames := by
  unfold groupOf groupNames
  split_ifs <;> decide

/-- Counting an item inside one bucket's filter. -/
lemma count_filter_groupOf (x : FeedbackItem) (items : List FeedbackItem)
    (g : String) :
    List.count x (items.filter (fun it => groupOf it = g))
      = if groupOf x = g then List.count x items else 0 := by
  by_cases hg : groupOf x = g
  · rw [if_pos hg]
    apply List.count_filter
    simp [hg]
  · rw [if_neg hg]
    rw [List.count_eq_zero]
    intro hmem
    rw [List.mem_filter] at hmem
    exact hg (by simpa using hmem.2)

/-- Summing the single matching bucket over the key list. -/
lemma sum_ite_count (keys : List String) (gx : String) (c : Nat) :
    (keys.map (fun g => if gx = g then c else 0)).sum
      = (List.count gx keys) * c := by
  induction keys with
  | nil => simp
  | cons k rest ih =>
    rw [List.map_cons, List.sum_cons, ih, List.count_cons]
    by_cases h : gx = k
    · simp [h, Nat.add_mul, Nat.add_comm]
    · simp only [if_neg h, Nat.zero_add, Nat.add_mul]
      have hbeq : (k == gx) = false := by
        simp only [beq_eq_false_iff_ne, ne_eq]
        exact fun hk => h hk.symm
      rw [hbeq]
      simp

/-- Dropping the empty buckets does not change the concatenation of the
bucket contents. -/
lemma flatten_filter_nonempty {α β : Type} :
    ∀ (l : List (α × List β)),
    ((l.filter (fun p => !(p.2.isEmpty))).map Prod.snd).flatten
      = (l.map Prod.snd).flatten := by
  intro l
  induction l with
  | nil => rfl
  | cons p rest ih =>
    by_cases hp : p.2.isEmpty
    · have hnil : p.2 = [] := List.isEmpty_iff.mp hp
      rw [List.filter_cons, if_neg (by simp [hp]), List.map_cons,
        List.flatten_cons, hnil, List.nil_append, ih]
    · rw [List.filter_cons, if_pos (by simp [hp]), List.map_cons,
        List.flatten_cons, List.map_cons, List.flatten_cons, ih]

/-- Claim C10: _group_feedback_for_fixing partitions its input — the
concatenation of the returned groups' item lists is a permutation of
the input list (no feedback item is dropped or duplicated), every
returned group carries one of the eight fixed names and a non-empty
item list equal to the input filtered to that bucket (so exactly the
empty buckets are omitted), and every input item is assigned a bucket
among the eight names. -/
theorem grouping_partitions (items : List FeedbackItem) :
    (((groupFeedbackForFixing items).map Prod.snd).flatten).Perm items
    ∧ (∀ p ∈ groupFeedbackForFixing items,
        p.1 ∈ groupNames ∧ p.2 ≠ []
        ∧ p.2 = items.filter (fun it => groupOf it = p.1))
    ∧ (∀ g ∈ groupNames,
        ((g, items.filter (fun it => groupOf it = g))
            ∈ groupFeedbackForFixing items
          ↔ items.filter (fun it => groupOf it = g) ≠ []))
    ∧ (∀ it ∈ items, groupOf it ∈ groupNames) := by
  refine ⟨?_, ?_, ?_, ?_⟩
  · rw [List.perm_iff_count]
    intro x
    unfold groupFeedbackForFixing
    rw [flatten_filter_nonempty, List.count_flatten, List.map_map,
      List.map_map]
    have hmap : (groupNames.map
        ((List.count x ∘ Prod.snd) ∘
          fun g => (g, items.filter (fun it => groupOf it = g))))
        = groupNames.map (fun g => if groupOf x = g then
            List.count x items else 0) := by
      apply List.map_congr_left
      intro g _
      exact count_filter_groupOf x items g
    rw [hmap, sum_ite_count,
      List.count_eq_one_of_mem (by decide) (groupOf_mem_groupNames x),
      Nat.one_mul]
  · intro p hp
    unfold groupFeedbackForFixing at hp
    rw [List.mem_filter] at hp
    obtain ⟨hmem, hne⟩ := hp
    rw [List.mem_map] at hmem
    obtain ⟨g, hg, hpg⟩ := hmem
    subst hpg
    refine ⟨hg, ?_, rfl⟩
    intro hcon
    rw [hcon] at hne
    simp at hne
  · intro g hg
    unfold groupFeedbackForFixing
    constructor
    · intro hmem
      rw [List.mem_filter] at hmem
      intro hcon
      rw [hcon] at hmem
      simp at hmem
    · intro hne
      rw [List.mem_filter]
      refine ⟨?_, by simpa using hne⟩
      rw [List.mem_map]
      exact ⟨g, hg, rfl⟩
  · intro it _
    exact groupOf_mem_groupNames it

/-! ## Continuous monitoring (claim C7) -/

/-- Claim C7, evaluated at its failing input: a tracked PR with
auto_fix_attempts = 3 and failing CI gets its status flagged
ready_for_human by _process_pr, but the returned dict lacks the
ready_for_human key, so run_monitoring_cycle does not remove it from
the tracked set after the cycle — and the next cycle processes the
already-flagged PR again (both scripted CI statuses are consumed).  A
PR whose CI is passing, by contrast, is removed within its cycle. -/
theorem monitor_keeps_flagged_pr :
    (processPr ⟨5, CiStatus.pending, 3, false, false⟩
        ⟨[CiStatus.failing, CiStatus.failing], []⟩).1
      = ⟨"needs_human_intervention", false⟩
    ∧ (processPr ⟨5, CiStatus.pending, 3, false, false⟩
        ⟨[CiStatus.failing, CiStatus.failing], []⟩).2.1.readyForHuman = true
    ∧ (runMonitoringCycle 1 [(5, ⟨5, CiStatus.pending, 3, false, false⟩)]
        ⟨[CiStatus.failing, CiStatus.failing], []⟩).1
      = [(5, ⟨5, CiStatus.failing, 3, true, false⟩)]
    ∧ (runMonitoringCycle 2 [(5, ⟨5, CiStatus.pending, 3, false, false⟩)]
        ⟨[CiStatus.failing, CiStatus.failing], []⟩).2.ciStatuses = []
    ∧ (runMonitoringCycle 1 [(5, ⟨5, CiStatus.pending, 3, false, false⟩)]
        ⟨[CiStatus.passing], []⟩).1 = [] :=
  ⟨rfl, rfl, rfl, rfl, rfl⟩

end Devflow
